/-
Verification of the case aggregation and outcome-scoring engine of the
logistic_project repository.

The Python sources under model/ are shallowly embedded here:
  * pandas DataFrames become Lean lists of typed records;
  * a cell of the raw spreadsheet becomes the inductive `Cell`
    (a number, a text, or a missing/NaN value);
  * `pd.to_numeric(..., errors="coerce")` becomes the total function
    `toNumericOpt` (numeric strings are parsed, anything else is `none`);
  * Python `round(x, d)` (round half to even) becomes `roundTo d`;
  * float arithmetic is modelled exactly over `ℚ`: every quantity the
    claims inspect is compared after rounding, where the exact rational
    value and the float value agree.
-/
import Mathlib

namespace Logistic

/-! ## Rounding: Python `round` (half to even) over `ℚ` -/

/-- Round a rational to the nearest integer, halves to the even integer,
as Python's builtin `round` does. -/
def rndHalfEven (x : ℚ) : ℤ :=
  if x - ⌊x⌋ < 1/2 then ⌊x⌋
  else if 1/2 < x - ⌊x⌋ then ⌊x⌋ + 1
  else if ⌊x⌋ % 2 = 0 then ⌊x⌋ else ⌊x⌋ + 1

/-- Python `round(x, d)`: round to `d` decimal places, halves to even. -/
def roundTo (d : ℕ) (x : ℚ) : ℚ := (rndHalfEven (x * 10 ^ d) : ℚ) / 10 ^ d

theorem le_rndHalfEven (x : ℚ) : ⌊x⌋ ≤ rndHalfEven x := by
  unfold rndHalfEven; split_ifs <;> omega

theorem rndHalfEven_le (x : ℚ) : rndHalfEven x ≤ ⌊x⌋ + 1 := by
  unfold rndHalfEven; split_ifs <;> omega

theorem rndHalfEven_mono {x y : ℚ} (h : x ≤ y) :
    rndHalfEven x ≤ rndHalfEven y := by
  rcases lt_or_eq_of_le (Int.floor_le_floor h) with hf | hf
  · calc rndHalfEven x ≤ ⌊x⌋ + 1 := rndHalfEven_le x
      _ ≤ ⌊y⌋ := by omega
      _ ≤ rndHalfEven y := le_rndHalfEven y
  · unfold rndHalfEven
    rw [← hf]
    split_ifs <;> first | omega | linarith

theorem rndHalfEven_intCast (n : ℤ) : rndHalfEven (n : ℚ) = n := by
  unfold rndHalfEven
  rw [Int.floor_intCast, sub_self]
  norm_num

theorem roundTo_mono (d : ℕ) {x y : ℚ} (h : x ≤ y) :
    roundTo d x ≤ roundTo d y := by
  unfold roundTo
  have hp : (0 : ℚ) < 10 ^ d := by positivity
  exact (div_le_div_iff_of_pos_right hp).mpr
    (Int.cast_le.mpr (rndHalfEven_mono (mul_le_mul_of_nonneg_right h hp.le)))

theorem roundTo_intCast (d : ℕ) (n : ℤ) : roundTo d (n : ℚ) = n := by
  unfold roundTo
  have h : ((n : ℚ) * 10 ^ d) = ((n * 10 ^ d : ℤ) : ℚ) := by push_cast; ring
  rw [h, rndHalfEven_intCast]
  push_cast
  exact mul_div_cancel_right₀ _ (by positivity)

theorem roundTo_nonneg (d : ℕ) {x : ℚ} (h : 0 ≤ x) : 0 ≤ roundTo d x := by
  have h0 : roundTo d ((0 : ℤ) : ℚ) = 0 := by rw [roundTo_intCast]; norm_num
  have hm : roundTo d ((0 : ℤ) : ℚ) ≤ roundTo d x := roundTo_mono d (by norm_num [h])
  rw [h0] at hm
  exact hm

theorem roundTo_le_intCast (d : ℕ) {x : ℚ} {n : ℤ} (h : x ≤ (n : ℚ)) :
    roundTo d x ≤ (n : ℚ) := by
  have := roundTo_mono d h
  rw [roundTo_intCast] at this
  exact this

/-! ## String helpers

Python `str.strip`, `str.lower` and decimal parsing are modelled by
structurally recursive functions over the character list of a string
(the core library's iterator-based versions are extensionally the same
but do not evaluate by `decide`). -/

/-- Python `str.lower` for the ASCII letters that occur in column labels. -/
def lowerChar (c : Char) : Char :=
  if 'A' ≤ c ∧ c ≤ 'Z' then Char.ofNat (c.toNat + 32) else c

/-- Python `str.lower`. -/
def lowerStr (s : String) : String := ⟨s.data.map lowerChar⟩

/-- Python `str.strip`: drop leading and trailing whitespace. -/
def trimStr (s : String) : String :=
  ⟨((s.data.dropWhile (·.isWhitespace)).reverse.dropWhile (·.isWhitespace)).reverse⟩

/-- Value of a nonempty all-digit character run, `none` otherwise. -/
def digitsVal : List Char → Option ℕ
  | [] => none
  | l => if l.all (·.isDigit) then
      some (l.foldl (fun a c => a * 10 + (c.toNat - 48)) 0)
    else none

/-! ## Cells: values of one spreadsheet cell -/

/-- One cell of the tabular dataset: a number, a text, or a missing value
(pandas `NaN`/`None`). -/
inductive Cell where
  | num (q : ℚ)
  | str (s : String)
  | null
deriving DecidableEq

/-- Parse an unsigned decimal character run (`12`, `12.5`, `12.`, `.5`)
into a numerator and a power-of-ten denominator. -/
def parseUnsigned (l : List Char) : Option (ℕ × ℕ) :=
  let ip := l.takeWhile (· ≠ '.')
  match l.dropWhile (· ≠ '.') with
  | [] => (digitsVal ip).map fun n => (n, 1)
  | '.' :: frac =>
    match ip, frac with
    | [], _ => (digitsVal frac).map fun m => (m, 10 ^ frac.length)
    | _, [] => (digitsVal ip).map fun n => (n, 1)
    | _, _ =>
      match digitsVal ip, digitsVal frac with
      | some n, some m => some (n * 10 ^ frac.length + m, 10 ^ frac.length)
      | _, _ => none
  | _ => none

/-- Parse a plain decimal string (optional sign, optional fraction part)
into a rational, as `pd.to_numeric` does for numeric strings; `none` on
anything else (scientific notation is out of scope: no claim touches it). -/
def parseDecimal (s : String) : Option ℚ :=
  match (trimStr s).data with
  | '-' :: rest => (parseUnsigned rest).map fun p => mkRat (-(p.1 : ℤ)) p.2
  | t => (parseUnsigned t).map fun p => mkRat p.1 p.2

/-- `pd.to_numeric(value, errors="coerce")`: a number stays itself, a
numeric string is parsed, everything else becomes `NaN` (`none`).
It is a total function: coercion never raises. -/
def toNumericOpt : Cell → Option ℚ
  | .num q => some q
  | .str s => parseDecimal s
  | .null => none

/-- `pd.to_numeric(value, errors="coerce").fillna(0)`: unparseable or
missing cells contribute `0`. -/
def toNum0 (c : Cell) : ℚ := (toNumericOpt c).getD 0

/-- `first_non_null` over a column of cells: the first value that is not
null, or `none` when every value is null. -/
def firstSome : List Cell → Option Cell
  | [] => none
  | .null :: t => firstSome t
  | c :: _ => some c

/-- `first_non_null` over a column whose values are themselves optional
(a column of a derived frame where `None`/NaN marks a missing value). -/
def firstSomeO : List (Option Cell) → Option Cell
  | [] => none
  | none :: t => firstSomeO t
  | some c :: _ => some c

/-- Render a rational the way the scripts render a cell value inside an
f-string: an integer prints without a fractional part, a non-integer
prints as `num/den` (the exact value; Python float formatting is
abstracted to an injective rendering of the rational). -/
def ratStr (q : ℚ) : String :=
  if q.den = 1 then toString q.num else toString q.num ++ "/" ++ toString q.den

/-- Python `str(cell)`: a missing value prints as `nan`. -/
def pyStrCell : Cell → String
  | .num q => ratStr q
  | .str s => s
  | .null => "nan"

/-- Python `f"{value}"` for an optional cell (`None` prints as `None`). -/
def pyStrOpt : Option Cell → String
  | none => "None"
  | some c => pyStrCell c

/-- Join with `", "` as the scripts do. -/
def joinComma (l : List String) : String := String.intercalate ", " l

/-- First-seen deduplication: the distinct values of a list in order of
first appearance.  Models both the group keys of a `groupby` and the
`seen` accumulation of the combination script's list builders (pandas
sorts group keys; every property verified here is independent of the
order of the groups). -/
def firstSeen {α} [DecidableEq α] (l : List α) : List α :=
  l.foldl (fun acc k => if k ∈ acc then acc else acc ++ [k]) []

/-- Python `sorted` on strings compares code points; on the canonical
item keys this is the lexicographic order of the character lists. -/
def dataLe (a b : String) : Prop := a.data ≤ b.data

instance : DecidableRel dataLe := fun a b =>
  inferInstanceAs (Decidable (a.data ≤ b.data))

/-- Python `sorted` over a list of strings. -/
def sortStrings (l : List String) : List String := List.insertionSort dataLe l

example : toNum0 (.str "12.5") = mkRat 25 2 := by decide
example : toNum0 (.str " -3 ") = mkRat (-3) 1 := by decide
example : toNum0 (.str "mesh") = 0 := by decide
example : toNum0 .null = 0 := by decide
example : firstSome [.null, .str "a", .num 1] = some (.str "a") := by decide
example : sortStrings ["b", "a"] = ["a", "b"] := by decide
example : firstSeen ["a", "b", "a"] = ["a", "b"] := by decide
example : roundTo 4 (8/23) = 3478/10000 := by norm_num [roundTo, rndHalfEven]

/-! ## Outcome Scoring Engine (`model/compute_outcome_scores.py`)

Columns are modelled as typed fields of `ClinRow`; the column-name check
of `ensure_columns` is modelled separately on label lists below. -/

/-- The 13 weighted risk factors (`PARAM_KEYS`). -/
inductive Param where
  | er
  | revision
  | other_hosp
  | readm
  | blood_adm
  | abx_adm
  | first_vas
  | surg_len
  | recov_len
  | stay_hours
  | bp_diff
  | hr_diff
  | spo2_diff
deriving DecidableEq

/-- `PARAM_KEYS` in source order. -/
def paramList : List Param :=
  [.er, .revision, .other_hosp, .readm, .blood_adm, .abx_adm, .first_vas,
   .surg_len, .recov_len, .stay_hours, .bp_diff, .hr_diff, .spo2_diff]

/-- `WEIGHTS` (0.08, 0.06, 0.04, 0.16, 0.12 written as exact rationals). -/
def paramWeight : Param → ℚ
  | .er => 8/100
  | .revision => 8/100
  | .other_hosp => 8/100
  | .readm => 8/100
  | .blood_adm => 6/100
  | .abx_adm => 6/100
  | .first_vas => 4/100
  | .surg_len => 16/100
  | .recov_len => 4/100
  | .stay_hours => 12/100
  | .bp_diff => 4/100
  | .hr_diff => 4/100
  | .spo2_diff => 4/100

/-- `TOTAL_WEIGHT = sum(WEIGHTS.values())`. -/
def totalWeight : ℚ := (paramList.map paramWeight).sum

/-- `sum(WEIGHTS[k] for k, v in flags.items() if v)`. -/
def weightedSum (f : Param → Bool) : ℚ :=
  ((paramList.filter f).map paramWeight).sum

/-- `sum(bool(v) for v in flags.values())`. -/
def positives (f : Param → Bool) : ℕ := (paramList.filter f).length

/-- `score = round(weighted_sum / TOTAL_WEIGHT, 4)`. -/
def scoreOf (f : Param → Bool) : ℚ := roundTo 4 (weightedSum f / totalWeight)

/-- `group_outcome`: the three-way outcome category of a score
(`GOOD_THRESHOLD = 3/13`, `MODERATE_THRESHOLD = 6/13`). -/
def groupOutcome (s : ℚ) : String :=
  if s < 3/13 then "good outcome"
  else if 3/13 ≤ s ∧ s ≤ 6/13 then "moderate outcome"
  else "bad outcome"

/-- One input row of the clinical dataset, restricted to the columns the
scoring engine reads (the case identifier and the 13 parameter columns). -/
structure ClinRow where
  caseNum : String
  er : Cell
  revision : Cell
  other_hosp : Cell
  readm : Cell
  blood_adm : Cell
  abx_adm : Cell
  first_vas : Cell
  surg_len : Cell
  recov_len : Cell
  stay_hours : Cell
  bp_diff : Cell
  hr_diff : Cell
  spo2_diff : Cell
deriving DecidableEq

/-- `pd.to_numeric(v, errors="coerce") == 1` (`NaN == 1` is false). -/
def cellEq1 (c : Cell) : Bool := toNumericOpt c == some 1

/-- `pd.to_numeric(v, errors="coerce") > bound` (comparisons with `NaN`
are false). -/
def cellGt (c : Cell) (bound : ℚ) : Bool :=
  match toNumericOpt c with
  | some v => decide (bound < v)
  | none => false

/-- `pd.to_numeric(v, errors="coerce") > threshold` where the threshold
itself may be `NaN` (`none`): any comparison with `NaN` is false. -/
def cellGtOpt (c : Cell) (t : Option ℚ) : Bool :=
  match toNumericOpt c, t with
  | some v, some b => decide (b < v)
  | _, _ => false

/-- `Series.dropna()`: the non-null cells of a column. -/
def dropna (cells : List Cell) : List Cell := cells.filter (fun c => c ≠ .null)

/-- The numeric values among a column's cells. -/
def numValues (cells : List Cell) : List ℚ :=
  cells.filterMap fun c => match c with | .num q => some q | _ => none

/-- Whether a cell holds text. -/
def isStrCell : Cell → Bool
  | .str _ => true
  | _ => false

/-- Whether a cell is numeric or missing (the shape of a column loaded
with a numeric dtype; a text cell makes the column object-typed and the
quantile/aggregation paths raise on it, see `quantile75` and
`cellMax`). -/
def cellTyped : Cell → Bool
  | .str _ => false
  | _ => true

/-- Pandas `Series.max` used by `agg_case_level`, restricted to a group
of numeric-or-missing cells — the shape of a run that completes: the
maximum over the numeric values, `NaN` when there is none (`max` skips
`NaN`).  `cellMax` below also models the text and mixed-type
behaviour of `Series.max`. -/
def cellMaxList (cells : List Cell) : Cell :=
  match cells.filterMap (fun c => match c with | .num q => some q | _ => none) with
  | [] => .null
  | q :: t => .num (t.foldl max q)

/-- Pandas `Series.dropna().quantile(0.75)` with the default linear
interpolation: `NaN` (`none`) on an empty series, else the interpolated
75th percentile of the sorted values. -/
def q75 (l : List ℚ) : Option ℚ :=
  match l with
  | [] => none
  | _ =>
    let s := List.insertionSort (· ≤ ·) l
    let pos := 3 * (s.length - 1)
    let i := pos / 4
    let lo := s.getD i 0
    let hi := s.getD (i + 1) lo
    some (lo + ((pos % 4 : ℕ) : ℚ) / 4 * (hi - lo))

/-- The three population thresholds of `compute_thresholds`. -/
structure Thresholds where
  surg : Option ℚ
  recov : Option ℚ
  stay : Option ℚ
deriving DecidableEq

/-- `compute_thresholds` on a run that completes:
`df[col].dropna().quantile(0.75)` for each duration measure over all
item-level rows.  On a duration column that still holds text after
`dropna`, `Series.quantile` raises a `TypeError` instead — that path is
modelled by `quantile75` and `computeThresholdsE` below; on every
completing run the two models agree (`computeThresholdsE_ok`). -/
def computeThresholds (rows : List ClinRow) : Thresholds :=
  { surg := q75 (numValues (dropna (rows.map (·.surg_len))))
    recov := q75 (numValues (dropna (rows.map (·.recov_len))))
    stay := q75 (numValues (dropna (rows.map (·.stay_hours)))) }

/-- `agg_case_level` restricted to one case: the worst-case (`max`)
aggregation of each parameter column over the case's item rows. -/
def caseAgg (g : List ClinRow) (k : String) : ClinRow :=
  { caseNum := k
    er := cellMaxList (g.map (·.er))
    revision := cellMaxList (g.map (·.revision))
    other_hosp := cellMaxList (g.map (·.other_hosp))
    readm := cellMaxList (g.map (·.readm))
    blood_adm := cellMaxList (g.map (·.blood_adm))
    abx_adm := cellMaxList (g.map (·.abx_adm))
    first_vas := cellMaxList (g.map (·.first_vas))
    surg_len := cellMaxList (g.map (·.surg_len))
    recov_len := cellMaxList (g.map (·.recov_len))
    stay_hours := cellMaxList (g.map (·.stay_hours))
    bp_diff := cellMaxList (g.map (·.bp_diff))
    hr_diff := cellMaxList (g.map (·.hr_diff))
    spo2_diff := cellMaxList (g.map (·.spo2_diff)) }

/-- `evaluate_flags`: the 13 boolean risk factors of one aggregated case
row against the fixed cutoffs and the population thresholds. -/
def evalFlags (row : ClinRow) (th : Thresholds) : Param → Bool
  | .er => cellEq1 row.er
  | .revision => cellEq1 row.revision
  | .other_hosp => cellEq1 row.other_hosp
  | .readm => cellEq1 row.readm
  | .blood_adm => cellEq1 row.blood_adm
  | .abx_adm => cellEq1 row.abx_adm
  | .first_vas => cellGt row.first_vas 7
  | .surg_len => cellGtOpt row.surg_len th.surg
  | .recov_len => cellGtOpt row.recov_len th.recov
  | .stay_hours => cellGtOpt row.stay_hours th.stay
  | .bp_diff => cellGt row.bp_diff 25
  | .hr_diff => cellGt row.hr_diff 25
  | .spo2_diff => cellGt row.spo2_diff 10

/-- One output record of `build_scores` (the activity passthrough
columns are omitted: no claim concerns them). -/
structure OutcomeRec where
  caseNum : String
  positives : ℕ
  score : ℚ
  normalized : ℚ
  group : String
deriving DecidableEq

/-- `build_scores` on a run that completes: population thresholds,
per-case worst-case aggregation, flag evaluation, weighted score,
normalized score and outcome group.  The quantile and aggregation
steps can raise a `TypeError` on text-bearing clinical columns; those
paths are modelled by `buildScoresE` below, whose successful runs
produce exactly these records on datasets whose clinical cells are
numeric or missing. -/
def buildScores (rows : List ClinRow) : List OutcomeRec :=
  let th := computeThresholds rows
  (firstSeen (rows.map (·.caseNum))).map fun k =>
    let f := evalFlags (caseAgg (rows.filter (fun r => r.caseNum = k)) k) th
    let s := scoreOf f
    { caseNum := k
      positives := positives f
      score := s
      normalized := roundTo 2 ((1 - s) * 100)
      group := groupOutcome s }

/-! ## Raising paths of the scoring engine

`compute_thresholds` calls `Series.quantile` with no numeric coercion
and `agg_case_level` calls `Series.max`; both raise a `TypeError` when
a clinical column carries text.  These paths are modelled exactly by
the `Except`-valued variants below. -/

/-- `Series.dropna().quantile(0.75)` in full: `dropna` removes only
nulls, so a non-numeric text entry stays in the series, makes the
column object-typed and `quantile` raises a `TypeError`; on a numeric
series the result is the interpolated percentile, `NaN` (`none`) when
empty. -/
def quantile75 (cells : List Cell) : Except String (Option ℚ) :=
  if (dropna cells).any isStrCell then .error "TypeError"
  else .ok (q75 (numValues (dropna cells)))

/-- `compute_thresholds` with its raising path: the three duration
quantiles in source order, aborting on the first `TypeError`. -/
def computeThresholdsE (rows : List ClinRow) : Except String Thresholds := do
  let s ← quantile75 (rows.map (·.surg_len))
  let r ← quantile75 (rows.map (·.recov_len))
  let st ← quantile75 (rows.map (·.stay_hours))
  return { surg := s, recov := r, stay := st }

/-- `Series.max` in full: `NaN` on an all-null group, the numeric
maximum on a numeric group, the code-point-largest string on an
all-text group, and a `TypeError` on a group mixing numbers and text
(Python cannot compare them). -/
def cellMax (cells : List Cell) : Except String Cell :=
  let kept := dropna cells
  if kept.isEmpty then .ok .null
  else if kept.all (fun c => !isStrCell c) then
    match numValues kept with
    | [] => .ok .null
    | q :: qs => .ok (.num (qs.foldl max q))
  else if kept.all isStrCell then
    match kept.filterMap (fun c => match c with | .str s => some s | _ => none) with
    | [] => .ok .null
    | s :: ss => .ok (.str (ss.foldl (fun a b => if dataLe a b then b else a) s))
  else .error "TypeError"

/-- `agg_case_level` restricted to one case, with the raising path of
`Series.max` on each parameter column. -/
def caseAggE (g : List ClinRow) (k : String) : Except String ClinRow := do
  let er ← cellMax (g.map (·.er))
  let revision ← cellMax (g.map (·.revision))
  let other_hosp ← cellMax (g.map (·.other_hosp))
  let readm ← cellMax (g.map (·.readm))
  let blood_adm ← cellMax (g.map (·.blood_adm))
  let abx_adm ← cellMax (g.map (·.abx_adm))
  let first_vas ← cellMax (g.map (·.first_vas))
  let surg_len ← cellMax (g.map (·.surg_len))
  let recov_len ← cellMax (g.map (·.recov_len))
  let stay_hours ← cellMax (g.map (·.stay_hours))
  let bp_diff ← cellMax (g.map (·.bp_diff))
  let hr_diff ← cellMax (g.map (·.hr_diff))
  let spo2_diff ← cellMax (g.map (·.spo2_diff))
  return { caseNum := k, er := er, revision := revision,
           other_hosp := other_hosp, readm := readm, blood_adm := blood_adm,
           abx_adm := abx_adm, first_vas := first_vas, surg_len := surg_len,
           recov_len := recov_len, stay_hours := stay_hours,
           bp_diff := bp_diff, hr_diff := hr_diff, spo2_diff := spo2_diff }

/-- `build_scores` with its raising paths: thresholds first (as in the
source), then the per-case aggregation, then the pure scoring of each
aggregated row. -/
def buildScoresE (rows : List ClinRow) : Except String (List OutcomeRec) := do
  let th ← computeThresholdsE rows
  let aggs ← (firstSeen (rows.map (·.caseNum))).mapM
    (fun k => caseAggE (rows.filter (fun r => r.caseNum = k)) k)
  return aggs.map fun row =>
    let f := evalFlags row th
    let s := scoreOf f
    { caseNum := row.caseNum
      positives := positives f
      score := s
      normalized := roundTo 2 ((1 - s) * 100)
      group := groupOutcome s }

/-! ## Case Aggregator (`model/compute_case_items.py`,
`model/compute_item_combinations.py`, `model/compute_surgery_totals.py`) -/

/-- One item-level input row, restricted to the columns the billing
pipelines read.  The case identifier is the non-null grouping key. -/
structure ItemRow where
  caseNum : String
  surgeonName : Cell
  surgeonScore : Cell
  itemName : Cell
  quantity : Cell
  totalPrice : Cell
  procs : Cell
  procsCode : Cell
deriving DecidableEq

/-- `f"{name} ({qty_fmt})"` of `concat_items`: the item name is
`str(...).strip()`, the already-coerced quantity prints as an integer
when it has no fractional part. -/
def renderItem (r : ItemRow) : String :=
  trimStr (pyStrCell r.itemName) ++ " (" ++ ratStr (toNum0 r.quantity) ++ ")"

/-- One derived case record.  `outcome` and `priceGroup` are filled by
the attach steps of the combination pipeline and are `none` before. -/
structure CaseRec where
  caseNum : String
  surgeonName : Option Cell
  surgeonScore : Option Cell
  procs : Option Cell
  procsCode : Option Cell
  totalPrice : ℚ
  totalQty : ℚ
  items : String
  outcome : Option String
  priceGroup : Option String
deriving DecidableEq

/-- `build_case_level` of `compute_case_items.py`: group the item rows
by case number; coerce quantity and price with zero fallback and sum
them; keep the first non-null surgeon name and score; join the rendered
items in original row order (display variant). -/
def buildCaseLevel (df : List ItemRow) : List CaseRec :=
  (firstSeen (df.map (·.caseNum))).map fun k =>
    let g := df.filter (fun r => r.caseNum = k)
    { caseNum := k
      surgeonName := firstSome (g.map (·.surgeonName))
      surgeonScore := firstSome (g.map (·.surgeonScore))
      procs := none
      procsCode := none
      totalPrice := (g.map (fun r => toNum0 r.totalPrice)).sum
      totalQty := (g.map (fun r => toNum0 r.quantity)).sum
      items := joinComma (g.map renderItem)
      outcome := none
      priceGroup := none }

/-- `build_case_level` of `compute_item_combinations.py`: same
aggregation, but the item list is sorted first so the key is canonical,
and the procedure columns are kept. -/
def buildCaseLevelCombo (df : List ItemRow) : List CaseRec :=
  (firstSeen (df.map (·.caseNum))).map fun k =>
    let g := df.filter (fun r => r.caseNum = k)
    { caseNum := k
      surgeonName := firstSome (g.map (·.surgeonName))
      surgeonScore := firstSome (g.map (·.surgeonScore))
      procs := firstSome (g.map (·.procs))
      procsCode := firstSome (g.map (·.procsCode))
      totalPrice := (g.map (fun r => toNum0 r.totalPrice)).sum
      totalQty := (g.map (fun r => toNum0 r.quantity)).sum
      items := joinComma (sortStrings (g.map renderItem))
      outcome := none
      priceGroup := none }

/-! ## Surgeon Cost Grouper (`compute_surgeon_groups`) -/

/-- Pandas `Series.median`: sort, take the middle element, or the mean
of the two middle elements; `0` for the empty list (the callers only
take the median of a nonempty series). -/
def median (l : List ℚ) : ℚ :=
  let s := List.insertionSort (· ≤ ·) l
  if s.length = 0 then 0
  else if s.length % 2 = 1 then s.getD (s.length / 2) 0
  else (s.getD (s.length / 2 - 1) 0 + s.getD (s.length / 2) 0) / 2

/-- Per-surgeon mean of the per-case total prices (`"total price": "mean"`
over the case-level frame grouped by surgeon name). -/
def surgeonAvg (caseDf : List CaseRec) (s : Cell) : ℚ :=
  let g := caseDf.filter (fun c => c.surgeonName = some s)
  ((g.map (·.totalPrice)).sum) / (g.length : ℚ)

/-- One row of the per-surgeon output frame. -/
structure SurgeonRec where
  name : Cell
  avg : ℚ
  surgeries : ℕ
  score : Option Cell
  tier : String
deriving DecidableEq

/-- `compute_surgeon_groups` given a case frame whose columns exist:
group case records by surgeon name (null names are dropped by pandas
`groupby`), average the per-case prices, count distinct cases, derive
the threshold (supplied, or median of the per-surgeon means, with the
source's `else 0` guard for an empty frame) and label each surgeon
`cheap` iff its mean is at most the threshold, returning the records
together with the threshold used.  On a zero-row dataset the case
frame built by `build_case_level` is `pd.DataFrame([])`, which has no
columns, and `groupby("surgeon name")` raises a `KeyError` before any
of this runs — that entry path is modelled by
`computeSurgeonGroupsRun` below. -/
def computeSurgeonGroups (caseDf : List CaseRec) (t : Option ℚ) :
    List SurgeonRec × ℚ :=
  let names := firstSeen (caseDf.filterMap (·.surgeonName))
  let th := match t with
    | some v => v
    | none => if names.isEmpty then 0 else median (names.map (surgeonAvg caseDf))
  (names.map fun s =>
    let g := caseDf.filter (fun c => c.surgeonName = some s)
    { name := s
      avg := surgeonAvg caseDf s
      surgeries := (firstSeen (g.map (·.caseNum))).length
      score := firstSomeO (g.map (·.surgeonScore))
      tier := if surgeonAvg caseDf s ≤ th then "cheap" else "expensive" }, th)

/-- Running the Surgeon Cost Grouper on the case frame built by
`build_case_level`: a zero-row dataset yields zero case records, so
`pd.DataFrame([])` has no `surgeon name` column at all and
`case_df.groupby("surgeon name")` raises a `KeyError` (the `else 0`
threshold guard of the source is unreachable on this path); a nonempty
case frame has its columns and the grouping proceeds. -/
def computeSurgeonGroupsRun (df : List ItemRow) (t : Option ℚ) :
    Except String (List SurgeonRec × ℚ) :=
  if (buildCaseLevel df).isEmpty then .error "KeyError: surgeon name"
  else .ok (computeSurgeonGroups (buildCaseLevel df) t)

/-! ## Combination Aggregator (`aggregate_combinations`) -/

/-- `attach_outcomes`: left-merge the outcome group onto the case frame
(a case without a scored outcome gets `None`). -/
def attachOutcomes (cs : List CaseRec) (outs : List OutcomeRec) : List CaseRec :=
  cs.map fun c =>
    { c with outcome := (outs.find? (fun o => o.caseNum = c.caseNum)).map (·.group) }

/-- `attach_price_group`: left-merge each surgeon's price tier onto the
case frame (a null surgeon name matches nothing and yields `None`). -/
def attachPriceGroup (cs : List CaseRec) (ps : List SurgeonRec) : List CaseRec :=
  cs.map fun c =>
    { c with priceGroup := (ps.find? (fun s => some s.name = c.surgeonName)).map (·.tier) }

/-- The rendered `f"{name} ({score})"` label of `surgeons_list` for one
case's (surgeon name, surgeon score) pair of raw first-non-null values. -/
def surgeonLabel (p : Option Cell × Option Cell) : String :=
  pyStrOpt p.1 ++ " (" ++ pyStrOpt p.2 ++ ")"

/-- `surgeons_list`: the distinct rendered labels in first-seen order.
Nothing is filtered: a null name or score is rendered literally. -/
def surgeonsLabels (pairs : List (Option Cell × Option Cell)) : List String :=
  firstSeen (pairs.map surgeonLabel)

/-- `groups_list` / `outcomes_list`: the distinct non-null values in
first-seen order (`pd.notna` drops the nulls before deduplication). -/
def groupsLabels (vals : List (Option String)) : List String :=
  firstSeen (vals.filterMap id)

/-- `", ".join(sorted({str(v) for v in s if pd.notna(v)}))`. -/
def setJoin (vals : List (Option Cell)) : String :=
  joinComma (sortStrings (firstSeen ((vals.filterMap id).map pyStrCell)))

/-- The groups of the `groupby("items")` of `aggregate_combinations`:
one group per distinct canonical item key, with the case records whose
key matches. -/
def comboGroups (cs : List CaseRec) : List (String × List CaseRec) :=
  (firstSeen (cs.map (·.items))).map fun k => (k, cs.filter (fun c => c.items = k))

/-- One output row of `aggregate_combinations`. -/
structure ComboRec where
  combination : String
  frequency : ℕ
  surgeons : String
  priceGroups : String
  avgPrice : ℚ
  procsAll : String
  procsCodeAll : String
  outcomes : String
deriving DecidableEq

/-- `aggregate_combinations`: one record per distinct canonical item
key. -/
def aggregateCombinations (cs : List CaseRec) : List ComboRec :=
  (comboGroups cs).map fun g =>
    { combination := g.1
      frequency := (firstSeen (g.2.map (·.caseNum))).length
      surgeons := joinComma (surgeonsLabels (g.2.map fun c => (c.surgeonName, c.surgeonScore)))
      priceGroups := joinComma (groupsLabels (g.2.map (·.priceGroup)))
      avgPrice := ((g.2.map (·.totalPrice)).sum) / (g.2.length : ℚ)
      procsAll := setJoin (g.2.map (·.procs))
      procsCodeAll := setJoin (g.2.map (·.procsCode))
      outcomes := joinComma (groupsLabels (g.2.map (·.outcome))) }

/-! ## Schema Normalizer (`normalize_columns`, `ensure_columns`,
`load_data`) -/

/-- `df.columns.str.strip().str.lower()`. -/
def normalizeCols (cols : List String) : List String :=
  cols.map fun c => lowerStr (trimStr c)

/-- The required column labels of the Outcome Scoring Engine:
`COLS[k] for k in PARAM_KEYS + ["case"]` in source order. -/
def requiredOutcomeCols : List String :=
  ["er addmission", "revision", "moving to other hospital", "re-addmission",
   "blood in addmission", "antibiotic in addmission", "first vas",
   "surgery length(min)", "recovery lentgh (min)",
   "calculate length of stay (hours)", "blood pressure diff %",
   "hr diff %", "spo2 diff %", "case number"]

/-- `ensure_columns` of `compute_outcome_scores.py`: collect every
required column missing from the normalized columns and raise a
`KeyError` naming all of them, or succeed. -/
def ensureColumns (cols : List String) : Except (List String) Unit :=
  let missing := requiredOutcomeCols.filter (fun c => c ∉ normalizeCols cols)
  if missing.isEmpty then .ok () else .error missing

/-- The required column labels of `compute_case_items.load_data`. -/
def requiredCaseItemCols : List String :=
  ["case number", "surgeon name", "surgeon score", "item name",
   "quantity", "total price"]

/-- The schema check of `compute_case_items.load_data`:
`sorted(REQUIRED_COLUMNS - set(df.columns))` raised as a `KeyError`
when nonempty. -/
def loadDataCheck (cols : List String) : Except (List String) Unit :=
  let missing := sortStrings (requiredCaseItemCols.filter (fun c => c ∉ normalizeCols cols))
  if missing.isEmpty then .ok () else .error missing

/-! ## Helper lemmas -/

theorem mem_foldl_seen {α} [DecidableEq α] (l : List α) (acc : List α) (x : α) :
    x ∈ l.foldl (fun a k => if k ∈ a then a else a ++ [k]) acc ↔ x ∈ acc ∨ x ∈ l := by
  induction l generalizing acc with
  | nil => simp
  | cons a t ih =>
    rw [List.foldl_cons, ih]
    by_cases ha : a ∈ acc
    · simp only [if_pos ha, List.mem_cons]
      constructor
      · rintro (h | h)
        · exact Or.inl h
        · exact Or.inr (Or.inr h)
      · rintro (h | h | h)
        · exact Or.inl h
        · exact Or.inl (h ▸ ha)
        · exact Or.inr h
    · simp only [if_neg ha, List.mem_append, List.mem_singleton, List.mem_cons]
      tauto

theorem mem_firstSeen {α} [DecidableEq α] (l : List α) (x : α) :
    x ∈ firstSeen l ↔ x ∈ l := by
  simpa [firstSeen] using mem_foldl_seen l [] x

theorem nodup_foldl_seen {α} [DecidableEq α] (l : List α) (acc : List α)
    (h : acc.Nodup) :
    (l.foldl (fun a k => if k ∈ a then a else a ++ [k]) acc).Nodup := by
  induction l generalizing acc with
  | nil => simpa
  | cons a t ih =>
    rw [List.foldl_cons]
    by_cases ha : a ∈ acc
    · rw [if_pos ha]; exact ih acc h
    · rw [if_neg ha]
      refine ih _ ?_
      rw [List.nodup_append]
      exact ⟨h, List.nodup_singleton a, fun x hx hx1 => ha ((List.mem_singleton.mp hx1) ▸ hx)⟩

theorem nodup_firstSeen {α} [DecidableEq α] (l : List α) : (firstSeen l).Nodup :=
  nodup_foldl_seen l [] List.nodup_nil

theorem paramWeight_nonneg (p : Param) : 0 ≤ paramWeight p := by
  cases p <;> norm_num [paramWeight]

theorem paramWeight_ge (p : Param) : 1/25 ≤ paramWeight p := by
  cases p <;> norm_num [paramWeight]

theorem mem_paramList (p : Param) : p ∈ paramList := by
  cases p <;> simp [paramList]

theorem totalWeight_eq : totalWeight = 23/25 := by
  norm_num [totalWeight, paramList, paramWeight]

theorem totalWeight_pos : 0 < totalWeight := by rw [totalWeight_eq]; norm_num

theorem filter_weight_mono (l : List Param) {f g : Param → Bool}
    (h : ∀ p, f p = true → g p = true) :
    ((l.filter f).map paramWeight).sum ≤ ((l.filter g).map paramWeight).sum := by
  induction l with
  | nil => simp
  | cons a t ih =>
    rcases hfa : f a with _ | _
    · rcases hga : g a with _ | _
      · simpa [List.filter_cons, hfa, hga] using ih
      · simp [List.filter_cons, hfa, hga]
        have := paramWeight_nonneg a
        linarith [ih]
    · have hga := h a hfa
      simp [List.filter_cons, hfa, hga]
      linarith [ih]

theorem filter_weight_split (l : List Param) (f : Param → Bool) :
    ((l.filter f).map paramWeight).sum
      + ((l.filter (fun p => !f p)).map paramWeight).sum
      = (l.map paramWeight).sum := by
  induction l with
  | nil => simp
  | cons a t ih =>
    rcases hfa : f a with _ | _
    · simp [List.filter_cons, hfa]
      linarith [ih]
    · simp [List.filter_cons, hfa]
      linarith [ih]

theorem weightedSum_nonneg (f : Param → Bool) : 0 ≤ weightedSum f := by
  refine List.sum_nonneg ?_
  intro x hx
  obtain ⟨p, _, rfl⟩ := List.mem_map.mp hx
  exact paramWeight_nonneg p

theorem weightedSum_mono {f g : Param → Bool} (h : ∀ p, f p = true → g p = true) :
    weightedSum f ≤ weightedSum g :=
  filter_weight_mono paramList h

theorem weightedSum_le (f : Param → Bool) : weightedSum f ≤ totalWeight := by
  have h := filter_weight_mono paramList (f := f) (g := fun _ => true)
    (fun _ _ => rfl)
  simpa [weightedSum, totalWeight, List.filter_true] using h

theorem weight_le_weightedSum {f : Param → Bool} {p : Param} (hp : f p = true) :
    paramWeight p ≤ weightedSum f := by
  have hmem : p ∈ paramList.filter f :=
    List.mem_filter.mpr ⟨mem_paramList p, hp⟩
  refine List.single_le_sum ?_ _ (List.mem_map_of_mem paramWeight hmem)
  intro x hx
  obtain ⟨q, _, rfl⟩ := List.mem_map.mp hx
  exact paramWeight_nonneg q

theorem weightedSum_split (f : Param → Bool) :
    weightedSum f + weightedSum (fun p => !f p) = totalWeight :=
  filter_weight_split paramList f

theorem scoreOf_nonneg (f : Param → Bool) : 0 ≤ scoreOf f :=
  roundTo_nonneg 4 (div_nonneg (weightedSum_nonneg f) totalWeight_pos.le)

theorem scoreOf_le_one (f : Param → Bool) : scoreOf f ≤ 1 := by
  have hx : weightedSum f / totalWeight ≤ ((1 : ℤ) : ℚ) := by
    rw [Int.cast_one]
    exact (div_le_one totalWeight_pos).mpr (weightedSum_le f)
  have := roundTo_le_intCast 4 hx
  rw [Int.cast_one] at this
  exact this

theorem scoreOf_mono {f g : Param → Bool} (h : ∀ p, f p = true → g p = true) :
    scoreOf f ≤ scoreOf g :=
  roundTo_mono 4
    ((div_le_div_iff_of_pos_right totalWeight_pos).mpr (weightedSum_mono h))

theorem scoreOf_eq_zero_iff (f : Param → Bool) :
    scoreOf f = 0 ↔ ∀ p, f p = false := by
  constructor
  · intro hs
    by_contra hne
    push_neg at hne
    obtain ⟨p, hp⟩ := hne
    have hpt : f p = true := by
      cases hfp : f p
      · exact absurd hfp hp
      · rfl
    have h1 : (1 : ℚ)/25 ≤ weightedSum f :=
      le_trans (paramWeight_ge p) (weight_le_weightedSum hpt)
    have h2 : (1 : ℚ)/25 / (23/25) ≤ weightedSum f / (23/25) :=
      (div_le_div_iff_of_pos_right (by norm_num)).mpr h1
    have h3 : roundTo 4 ((1 : ℚ)/25 / (23/25)) ≤ scoreOf f := by
      rw [scoreOf, totalWeight_eq]
      exact roundTo_mono 4 h2
    have h4 : roundTo 4 ((1 : ℚ)/25 / (23/25)) = 435/10000 := by
      norm_num [roundTo, rndHalfEven]
    rw [h4, hs] at h3
    linarith
  · intro hall
    have h0 : paramList.filter f = [] := by
      rw [List.filter_eq_nil_iff]
      intro p _
      simp [hall p]
    rw [scoreOf, weightedSum, h0]
    simp only [List.map_nil, List.sum_nil, zero_div]
    have := roundTo_intCast 4 0
    simpa using this

theorem scoreOf_eq_one_iff (f : Param → Bool) :
    scoreOf f = 1 ↔ ∀ p, f p = true := by
  constructor
  · intro hs
    by_contra hne
    push_neg at hne
    obtain ⟨p, hp⟩ := hne
    have hpf : f p = false := by
      cases hfp : f p
      · rfl
      · exact absurd hfp hp
    have hnp : (fun q => !f q) p = true := by simp [hpf]
    have h1 : (1 : ℚ)/25 ≤ weightedSum (fun q => !f q) :=
      le_trans (paramWeight_ge p) (weight_le_weightedSum hnp)
    have h2 : weightedSum f ≤ 22/25 := by
      have := weightedSum_split f
      rw [totalWeight_eq] at this
      linarith
    have h3 : weightedSum f / (23/25) ≤ (22 : ℚ)/25 / (23/25) :=
      (div_le_div_iff_of_pos_right (by norm_num)).mpr h2
    have h4 : scoreOf f ≤ roundTo 4 ((22 : ℚ)/25 / (23/25)) := by
      rw [scoreOf, totalWeight_eq]
      exact roundTo_mono 4 h3
    have h5 : roundTo 4 ((22 : ℚ)/25 / (23/25)) = 9565/10000 := by
      norm_num [roundTo, rndHalfEven]
    rw [h5, hs] at h4
    linarith
  · intro hall
    have h0 : paramList.filter f = paramList := by
      rw [List.filter_eq_self]
      intro p _
      exact hall p
    rw [scoreOf, weightedSum, h0]
    have hts : (paramList.map paramWeight).sum = totalWeight := rfl
    rw [hts, div_self totalWeight_pos.ne.symm]
    have := roundTo_intCast 4 1
    simpa using this

/-! ## Concrete datasets used by the witnesses -/

/-- A three-row billing dataset: case C1 has two item rows (one with an
unparseable price), case C2 has one. -/
def c4df : List ItemRow :=
  [{ caseNum := "C1", surgeonName := .str "A", surgeonScore := .num 1,
     itemName := .str "Mesh", quantity := .num 2, totalPrice := .num 100,
     procs := .null, procsCode := .null },
   { caseNum := "C1", surgeonName := .null, surgeonScore := .null,
     itemName := .str "Suture", quantity := .num 1, totalPrice := .str "bad",
     procs := .null, procsCode := .null },
   { caseNum := "C2", surgeonName := .str "B", surgeonScore := .num 2,
     itemName := .str "Mesh", quantity := .num 1, totalPrice := .num 50,
     procs := .null, procsCode := .null }]

example : firstSeen (c4df.map (·.caseNum)) = ["C1", "C2"] := by decide
example : renderItem (c4df.get ⟨0, by decide⟩) = "Mesh (2)" := by decide
example : (c4df.filter (fun r => r.caseNum = "C1")).length = 2 := by decide
theorem toNum0_num (q : ℚ) : toNum0 (.num q) = q := rfl

theorem toNum0_null : toNum0 .null = 0 := rfl

example : ((c4df.filter (fun r => r.caseNum = "C1")).map
    (fun r => toNum0 r.totalPrice)).sum = 100 := by
  have hbad : toNum0 (Cell.str "bad") = 0 := by decide
  simp [c4df, toNum0_num, hbad]

/-- A placeholder case record for total list accessors. -/
def dummyCase : CaseRec :=
  { caseNum := "", surgeonName := none, surgeonScore := none, procs := none,
    procsCode := none, totalPrice := 0, totalQty := 0, items := "",
    outcome := none, priceGroup := none }

/-- A placeholder surgeon record for total list accessors. -/
def dummySurgeon : SurgeonRec :=
  { name := .null, avg := 0, surgeries := 0, score := none, tier := "" }

theorem headD_mem {α} {l : List α} (d : α) (h : l ≠ []) : l.headD d ∈ l := by
  cases l with
  | nil => exact absurd rfl h
  | cons a t => simp

theorem getD_mem {α} {l : List α} {i : ℕ} (d : α) (h : i < l.length) :
    l.getD i d ∈ l := by
  rw [List.getD_eq_getElem l d h]
  exact List.getElem_mem h

/-! ## C7: empty dataset through the Surgeon Cost Grouper

The claim (and §7 of the spec, and `label_cost_group`'s own docstring
"If the dataset is empty, threshold defaults to 0") asserts a graceful
degenerate path, but the code never reaches it: a zero-row dataset
makes `build_case_level` return the columnless `pd.DataFrame([])`, on
which `groupby("surgeon name")` raises a `KeyError`; the averages
pipeline returns before attaching `threshold_used`, so it reports
`None`, not 0. -/

/-- C7: on the empty dataset the Surgeon Cost Grouper run raises a
`KeyError` instead of returning the empty output with threshold 0 the
code's own guards and docstring promise; a dataset with at least one
row reaches the grouping as modelled. -/
theorem surgeon_grouper_empty_keyerror :
    computeSurgeonGroupsRun ([] : List ItemRow) none
      = .error "KeyError: surgeon name"
    ∧ computeSurgeonGroupsRun c4df none
      = .ok (computeSurgeonGroups (buildCaseLevel c4df) none) := by
  constructor
  · rfl
  · rw [computeSurgeonGroupsRun, if_neg ?_]
    decide

/-! ## C8: schema check names every missing required column -/

/-- C8: for both schema checks (`ensure_columns` of the scoring engine
and `load_data` of the case-items pipeline), the check succeeds iff
every required column is among the trimmed, lowercased input columns,
and on failure the reported list contains exactly the missing required
columns — all of them, not just the first. -/
theorem schema_error_names_all_missing (cols : List String) :
    (ensureColumns cols = .ok ()
        ↔ ∀ c ∈ requiredOutcomeCols, c ∈ normalizeCols cols)
    ∧ (∀ miss, ensureColumns cols = .error miss →
        ∀ c, c ∈ miss ↔ c ∈ requiredOutcomeCols ∧ c ∉ normalizeCols cols)
    ∧ (loadDataCheck cols = .ok ()
        ↔ ∀ c ∈ requiredCaseItemCols, c ∈ normalizeCols cols)
    ∧ (∀ miss, loadDataCheck cols = .error miss →
        ∀ c, c ∈ miss ↔ c ∈ requiredCaseItemCols ∧ c ∉ normalizeCols cols) := by
  refine ⟨?_, ?_, ?_, ?_⟩
  · unfold ensureColumns
    by_cases hm : (requiredOutcomeCols.filter
        (fun c => c ∉ normalizeCols cols)).isEmpty
    · rw [if_pos hm]
      simp only [true_iff]
      rw [List.isEmpty_iff, List.filter_eq_nil_iff] at hm
      intro c hc
      have := hm c hc
      simpa using this
    · rw [if_neg hm]
      constructor
      · intro h
        exact absurd h (by simp)
      · intro hall
        exfalso
        apply hm
        rw [List.isEmpty_iff, List.filter_eq_nil_iff]
        intro c hc
        simp [hall c hc]
  · unfold ensureColumns
    by_cases hm : (requiredOutcomeCols.filter
        (fun c => c ∉ normalizeCols cols)).isEmpty
    · rw [if_pos hm]
      intro miss h
      exact absurd h (by simp)
    · rw [if_neg hm]
      intro miss h
      have hmiss : miss = requiredOutcomeCols.filter
          (fun c => c ∉ normalizeCols cols) := by
        injection h with h
        exact h.symm
      subst hmiss
      intro c
      simp [List.mem_filter]
  · unfold loadDataCheck
    by_cases hm : (sortStrings (requiredCaseItemCols.filter
        (fun c => c ∉ normalizeCols cols))).isEmpty
    · rw [if_pos hm]
      simp only [true_iff]
      rw [List.isEmpty_iff] at hm
      have hperm := List.perm_insertionSort dataLe
        (requiredCaseItemCols.filter (fun c => c ∉ normalizeCols cols))
      rw [sortStrings] at hm
      rw [hm] at hperm
      have hnil := hperm.symm.eq_nil
      rw [List.filter_eq_nil_iff] at hnil
      intro c hc
      have := hnil c hc
      simpa using this
    · rw [if_neg hm]
      constructor
      · intro h
        exact absurd h (by simp)
      · intro hall
        exfalso
        apply hm
        rw [List.isEmpty_iff]
        have hnil : requiredCaseItemCols.filter
            (fun c => c ∉ normalizeCols cols) = [] := by
          rw [List.filter_eq_nil_iff]
          intro c hc
          simp [hall c hc]
        rw [sortStrings, hnil]
        rfl
  · unfold loadDataCheck
    by_cases hm : (sortStrings (requiredCaseItemCols.filter
        (fun c => c ∉ normalizeCols cols))).isEmpty
    · rw [if_pos hm]
      intro miss h
      exact absurd h (by simp)
    · rw [if_neg hm]
      intro miss h
      have hmiss : miss = sortStrings (requiredCaseItemCols.filter
          (fun c => c ∉ normalizeCols cols)) := by
        injection h with h
        exact h.symm
      subst hmiss
      intro c
      rw [sortStrings, (List.perm_insertionSort dataLe _).mem_iff]
      simp [List.mem_filter]

/-- C8 witness: on a dataset whose only columns normalize to
`case number` and `revision`, the scoring-engine schema check reports
`er addmission` (and every other absent clinical column) as missing. -/
theorem schema_error_names_all_missing_witness :
    ∃ miss, ensureColumns [" Case Number", "Revision"] = .error miss
      ∧ "er addmission" ∈ miss ∧ "surgery length(min)" ∈ miss
      ∧ "case number" ∉ miss := by
  have h := (schema_error_names_all_missing [" Case Number", "Revision"]).2.1
  have hres : ensureColumns [" Case Number", "Revision"]
      = .error (requiredOutcomeCols.filter
        (fun c => c ∉ normalizeCols [" Case Number", "Revision"])) := rfl
  refine ⟨_, hres, ?_, ?_, ?_⟩
  · exact (h _ hres "er addmission").mpr (by decide)
  · exact (h _ hres "surgery length(min)").mpr (by decide)
  · intro hmem
    have := (h _ hres "case number").mp hmem
    exact absurd this (by decide)

/-! ## C4: case totals sum exactly the matching item rows -/

/-- C4: every derived case record's total price is the sum of the
coerced total-price cells over exactly the item rows whose case
identifier matches, and likewise for the quantity; a cell that does not
coerce to a number contributes 0, and coercion is a total function
(it never raises). -/
theorem case_totals_sum (df : List ItemRow) (r : CaseRec)
    (hr : r ∈ buildCaseLevel df) :
    r.totalPrice = ((df.filter (fun x => x.caseNum = r.caseNum)).map
        (fun x => toNum0 x.totalPrice)).sum
    ∧ r.totalQty = ((df.filter (fun x => x.caseNum = r.caseNum)).map
        (fun x => toNum0 x.quantity)).sum
    ∧ ∀ c : Cell, toNumericOpt c = none → toNum0 c = 0 := by
  obtain ⟨k, hk, rfl⟩ := List.mem_map.mp hr
  exact ⟨rfl, rfl, fun c hc => by simp [toNum0, hc]⟩

/-- C4 witness: the first case record of the three-row dataset `c4df`
(case C1, with one unparseable price cell) satisfies the sum equation. -/
theorem case_totals_sum_witness :
    ((buildCaseLevel c4df).headD dummyCase).totalPrice
      = ((c4df.filter (fun x =>
            x.caseNum = ((buildCaseLevel c4df).headD dummyCase).caseNum)).map
          (fun x => toNum0 x.totalPrice)).sum
    ∧ ((buildCaseLevel c4df).headD dummyCase).totalPrice = 100 := by
  have hne : buildCaseLevel c4df ≠ [] := by
    have hk : firstSeen (c4df.map (·.caseNum)) = ["C1", "C2"] := by decide
    simp [buildCaseLevel, hk]
  refine ⟨(case_totals_sum c4df _ (headD_mem dummyCase hne)).1, ?_⟩
  have hk2 : firstSeen ["C1", "C1", "C2"] = ["C1", "C2"] := by decide
  have hbad : toNum0 (Cell.str "bad") = 0 := by decide
  simp [buildCaseLevel, c4df, toNum0_num, hbad, hk2]

/-! ## C5: surgeon mean price, median threshold, tier rule -/

/-- A billing dataset with surgeons A (cases C1 and C3) and B (case C2). -/
def c5df : List ItemRow :=
  [{ caseNum := "C1", surgeonName := .str "A", surgeonScore := .num 1,
     itemName := .str "Mesh", quantity := .num 1, totalPrice := .num 100,
     procs := .null, procsCode := .null },
   { caseNum := "C2", surgeonName := .str "B", surgeonScore := .num 2,
     itemName := .str "Mesh", quantity := .num 1, totalPrice := .num 3000,
     procs := .null, procsCode := .null },
   { caseNum := "C3", surgeonName := .str "A", surgeonScore := .num 1,
     itemName := .str "Mesh", quantity := .num 1, totalPrice := .num 200,
     procs := .null, procsCode := .null }]

/-- C5: for every surgeon of the derived per-surgeon frame, the average
price is the arithmetic mean of that surgeon's per-case totals (each
distinct case appears exactly once in the case-level frame); with no
supplied threshold the threshold used is the median of the per-surgeon
means; and the tier is `cheap` iff the mean is at most the threshold. -/
theorem surgeon_mean_threshold_tier (df : List ItemRow) (t : Option ℚ)
    (sr : SurgeonRec)
    (hs : sr ∈ (computeSurgeonGroups (buildCaseLevel df) t).1) :
    sr.avg = (((buildCaseLevel df).filter
          (fun c => c.surgeonName = some sr.name)).map (·.totalPrice)).sum
        / ((((buildCaseLevel df).filter
          (fun c => c.surgeonName = some sr.name)).length : ℚ))
    ∧ ((buildCaseLevel df).map (·.caseNum)).Nodup
    ∧ (t = none → (computeSurgeonGroups (buildCaseLevel df) t).2
        = median ((firstSeen ((buildCaseLevel df).filterMap (·.surgeonName))).map
            (surgeonAvg (buildCaseLevel df))))
    ∧ (sr.tier = "cheap"
        ↔ sr.avg ≤ (computeSurgeonGroups (buildCaseLevel df) t).2) := by
  have hs2 : sr ∈ (firstSeen ((buildCaseLevel df).filterMap (·.surgeonName))).map
      (fun s =>
        let g := (buildCaseLevel df).filter (fun c => c.surgeonName = some s)
        ({ name := s
           avg := surgeonAvg (buildCaseLevel df) s
           surgeries := (firstSeen (g.map (·.caseNum))).length
           score := firstSomeO (g.map (·.surgeonScore))
           tier := if surgeonAvg (buildCaseLevel df) s
               ≤ (computeSurgeonGroups (buildCaseLevel df) t).2 then "cheap"
             else "expensive" } : SurgeonRec)) := hs
  obtain ⟨s, hsm, rfl⟩ := List.mem_map.mp hs2
  refine ⟨rfl, ?_, ?_, ?_⟩
  · have hmap : (buildCaseLevel df).map (·.caseNum)
        = firstSeen (df.map (·.caseNum)) := by
      rw [buildCaseLevel, List.map_map]
      have hid : ((fun c : CaseRec => c.caseNum)
          ∘ (fun k =>
            let g := df.filter (fun r => r.caseNum = k)
            ({ caseNum := k
               surgeonName := firstSome (g.map (·.surgeonName))
               surgeonScore := firstSome (g.map (·.surgeonScore))
               procs := none
               procsCode := none
               totalPrice := (g.map (fun r => toNum0 r.totalPrice)).sum
               totalQty := (g.map (fun r => toNum0 r.quantity)).sum
               items := joinComma (g.map renderItem)
               outcome := none
               priceGroup := none } : CaseRec))) = id := rfl
      rw [hid, List.map_id]
    rw [hmap]
    exact nodup_firstSeen _
  · intro ht
    subst ht
    show (if (firstSeen ((buildCaseLevel df).filterMap (·.surgeonName))).isEmpty
        then 0
        else median ((firstSeen ((buildCaseLevel df).filterMap
          (·.surgeonName))).map (surgeonAvg (buildCaseLevel df)))) = _
    by_cases hn : (firstSeen ((buildCaseLevel df).filterMap
        (·.surgeonName))).isEmpty
    · rw [if_pos hn]
      rw [List.isEmpty_iff] at hn
      rw [hn]
      rfl
    · rw [if_neg hn]
  · by_cases hle : surgeonAvg (buildCaseLevel df) s
        ≤ (computeSurgeonGroups (buildCaseLevel df) t).2
    · exact iff_of_true (by simp [hle]) hle
    · refine iff_of_false ?_ hle
      simp only [if_neg hle]
      decide

/-- C5 witness: in the dataset `c5df` the first surgeon's tier is
`cheap` exactly when its mean is at most the threshold used. -/
theorem surgeon_mean_threshold_tier_witness :
    ((computeSurgeonGroups (buildCaseLevel c5df) none).1.headD dummySurgeon).tier
        = "cheap"
      ↔ ((computeSurgeonGroups (buildCaseLevel c5df) none).1.headD
          dummySurgeon).avg
        ≤ (computeSurgeonGroups (buildCaseLevel c5df) none).2 := by
  have hne : (computeSurgeonGroups (buildCaseLevel c5df) none).1 ≠ [] := by decide
  exact (surgeon_mean_threshold_tier c5df none _
    (headD_mem dummySurgeon hne)).2.2.2

/-! ## C9: all-missing duration measures -/

theorem cellGtOpt_none (c : Cell) : cellGtOpt c none = false := by
  cases h : toNumericOpt c <;> simp [cellGtOpt, h]

/-- A one-row clinical dataset whose surgery length is null and whose
recovery length holds a non-numeric text. -/
def c9rows : List ClinRow :=
  [{ caseNum := "C1", er := .num 0, revision := .num 0, other_hosp := .num 0,
     readm := .num 0, blood_adm := .num 0, abx_adm := .num 0,
     first_vas := .num 0, surg_len := .null, recov_len := .str "unknown",
     stay_hours := .num 4, bp_diff := .num 0, hr_diff := .num 0,
     spo2_diff := .num 0 }]

/-- A clinical row whose cells are all numeric or missing, the shape of
a clinical dataset loaded with numeric dtypes. -/
def ClinRowTyped (r : ClinRow) : Prop :=
  ∀ c ∈ [r.er, r.revision, r.other_hosp, r.readm, r.blood_adm, r.abx_adm,
    r.first_vas, r.surg_len, r.recov_len, r.stay_hours, r.bp_diff,
    r.hr_diff, r.spo2_diff], cellTyped c = true

theorem except_bind_ok {ε α β : Type} (a : α) (f : α → Except ε β) :
    (Except.ok a >>= f) = f a := rfl

theorem except_bind_error {ε α β : Type} (e : ε) (f : α → Except ε β) :
    ((Except.error e : Except ε α) >>= f) = Except.error e := rfl

theorem except_map_ok {ε α β : Type} (f : α → β) (a : α) :
    (f <$> (Except.ok a : Except ε α)) = Except.ok (f a) := rfl

theorem except_pure {ε α : Type} (a : α) :
    (pure a : Except ε α) = Except.ok a := rfl

instance (r : ClinRow) : Decidable (ClinRowTyped r) :=
  inferInstanceAs (Decidable (∀ c ∈ [r.er, r.revision, r.other_hosp, r.readm,
    r.blood_adm, r.abx_adm, r.first_vas, r.surg_len, r.recov_len,
    r.stay_hours, r.bp_diff, r.hr_diff, r.spo2_diff], cellTyped c = true))

theorem quantile75_typed {cells : List Cell}
    (h : ∀ c ∈ cells, cellTyped c = true) :
    quantile75 cells = .ok (q75 (numValues (dropna cells))) := by
  have hna : (dropna cells).any isStrCell = false := by
    rw [List.any_eq_false]
    intro c hc
    have hm := h c (List.mem_filter.mp hc).1
    cases c <;> simp_all [cellTyped, isStrCell]
  simp [quantile75, hna]

theorem quantile75_ok_eq {cells : List Cell} {v : Option ℚ}
    (h : quantile75 cells = .ok v) :
    v = q75 (numValues (dropna cells)) := by
  rcases hc : (dropna cells).any isStrCell with _ | _
  · unfold quantile75 at h
    rw [hc] at h
    simp at h
    exact h.symm
  · unfold quantile75 at h
    rw [hc] at h
    simp at h

theorem computeThresholdsE_ok {rows : List ClinRow} {th : Thresholds}
    (h : computeThresholdsE rows = .ok th) : th = computeThresholds rows := by
  unfold computeThresholdsE at h
  rcases hq1 : quantile75 (rows.map (·.surg_len)) with e1 | v1 <;> rw [hq1] at h
  · rw [except_bind_error] at h
    exact Except.noConfusion h
  rw [except_bind_ok] at h
  rcases hq2 : quantile75 (rows.map (·.recov_len)) with e2 | v2 <;> rw [hq2] at h
  · rw [except_bind_error] at h
    exact Except.noConfusion h
  rw [except_bind_ok] at h
  rcases hq3 : quantile75 (rows.map (·.stay_hours)) with e3 | v3 <;> rw [hq3] at h
  · rw [except_bind_error] at h
    exact Except.noConfusion h
  rw [except_bind_ok, except_pure] at h
  injection h with h
  rw [← h, quantile75_ok_eq hq1, quantile75_ok_eq hq2, quantile75_ok_eq hq3]
  rfl

theorem cellMax_typed {cells : List Cell}
    (h : ∀ c ∈ cells, cellTyped c = true) :
    ∃ v, cellMax cells = .ok v := by
  have hall : (dropna cells).all (fun c => !isStrCell c) = true := by
    rw [List.all_eq_true]
    intro c hc
    have hm := h c (List.mem_filter.mp hc).1
    cases c <;> simp_all [cellTyped, isStrCell]
  rcases hke : (dropna cells).isEmpty with _ | _
  · rcases hnv : numValues (dropna cells) with _ | ⟨q, qs⟩
    · exact ⟨.null, by simp [cellMax, hke, hall, hnv]⟩
    · exact ⟨.num (qs.foldl max q), by simp [cellMax, hke, hall, hnv]⟩
  · exact ⟨.null, by simp [cellMax, hke]⟩

theorem caseAggE_typed {g : List ClinRow} (k : String)
    (h : ∀ r ∈ g, ClinRowTyped r) :
    ∃ row, caseAggE g k = .ok row := by
  have hget : ∀ f : ClinRow → Cell,
      (∀ r : ClinRow, ClinRowTyped r → cellTyped (f r) = true) →
      ∃ v, cellMax (g.map f) = .ok v := by
    intro f hf
    apply cellMax_typed
    intro c hc
    obtain ⟨r, hr, rfl⟩ := List.mem_map.mp hc
    exact hf r (h r hr)
  obtain ⟨v1, hv1⟩ := hget (·.er) (fun r hr => hr r.er (by simp))
  obtain ⟨v2, hv2⟩ := hget (·.revision) (fun r hr => hr r.revision (by simp))
  obtain ⟨v3, hv3⟩ := hget (·.other_hosp) (fun r hr => hr r.other_hosp (by simp))
  obtain ⟨v4, hv4⟩ := hget (·.readm) (fun r hr => hr r.readm (by simp))
  obtain ⟨v5, hv5⟩ := hget (·.blood_adm) (fun r hr => hr r.blood_adm (by simp))
  obtain ⟨v6, hv6⟩ := hget (·.abx_adm) (fun r hr => hr r.abx_adm (by simp))
  obtain ⟨v7, hv7⟩ := hget (·.first_vas) (fun r hr => hr r.first_vas (by simp))
  obtain ⟨v8, hv8⟩ := hget (·.surg_len) (fun r hr => hr r.surg_len (by simp))
  obtain ⟨v9, hv9⟩ := hget (·.recov_len) (fun r hr => hr r.recov_len (by simp))
  obtain ⟨v10, hv10⟩ := hget (·.stay_hours) (fun r hr => hr r.stay_hours (by simp))
  obtain ⟨v11, hv11⟩ := hget (·.bp_diff) (fun r hr => hr r.bp_diff (by simp))
  obtain ⟨v12, hv12⟩ := hget (·.hr_diff) (fun r hr => hr r.hr_diff (by simp))
  obtain ⟨v13, hv13⟩ := hget (·.spo2_diff) (fun r hr => hr r.spo2_diff (by simp))
  refine ⟨{ caseNum := k
            er := v1
            revision := v2
            other_hosp := v3
            readm := v4
            blood_adm := v5
            abx_adm := v6
            first_vas := v7
            surg_len := v8
            recov_len := v9
            stay_hours := v10
            bp_diff := v11
            hr_diff := v12
            spo2_diff := v13 }, ?_⟩
  rw [caseAggE, hv1, except_bind_ok, hv2, except_bind_ok, hv3, except_bind_ok,
    hv4, except_bind_ok, hv5, except_bind_ok, hv6, except_bind_ok,
    hv7, except_bind_ok, hv8, except_bind_ok, hv9, except_bind_ok,
    hv10, except_bind_ok, hv11, except_bind_ok, hv12, except_bind_ok, hv13,
    except_bind_ok, except_pure]

theorem mapM_ok {α β : Type} (f : α → Except String β) :
    ∀ l : List α, (∀ a ∈ l, ∃ b, f a = .ok b) →
      ∃ bs : List β, l.mapM f = .ok bs ∧ bs.length = l.length := by
  intro l
  induction l with
  | nil =>
    intro _
    exact ⟨[], rfl, rfl⟩
  | cons a t ih =>
    intro h
    obtain ⟨b, hb⟩ := h a (List.mem_cons_self a t)
    obtain ⟨bs, hbs, hlen⟩ := ih (fun x hx => h x (List.mem_cons_of_mem a hx))
    refine ⟨b :: bs, ?_, by simp [hlen]⟩
    rw [List.mapM_cons, hb, hbs]
    rfl

/-- C9 counterexample: on a dataset whose recovery length is a
non-numeric text on every item row, `compute_thresholds` raises a
`TypeError` (the text survives `dropna` and `Series.quantile` cannot
interpolate an object column), so outcome scoring aborts instead of
completing — refuting the claim's "or non-numeric" branch. -/
theorem text_duration_aborts_scoring :
    c9rows.map (·.recov_len) = [Cell.str "unknown"]
    ∧ computeThresholdsE c9rows = .error "TypeError"
    ∧ buildScoresE c9rows = .error "TypeError" := by
  refine ⟨rfl, rfl, rfl⟩

/-- C9 as amended: on a dataset whose clinical cells are numeric or
missing, the thresholds pass completes; a duration measure that is null
on every item row gets the `NaN` (`none`) threshold and a false risk
factor for every case row; and scoring completes with one record per
distinct case.  A duration measure holding non-numeric text instead
raises a `TypeError` and aborts the batch (see
`text_duration_aborts_scoring`). -/
theorem null_duration_degenerate (rows : List ClinRow)
    (hty : ∀ r ∈ rows, ClinRowTyped r) :
    ∃ th : Thresholds, computeThresholdsE rows = .ok th
      ∧ ((∀ r ∈ rows, r.surg_len = .null) →
          th.surg = none ∧ ∀ row : ClinRow, evalFlags row th .surg_len = false)
      ∧ ((∀ r ∈ rows, r.recov_len = .null) →
          th.recov = none ∧ ∀ row : ClinRow, evalFlags row th .recov_len = false)
      ∧ ((∀ r ∈ rows, r.stay_hours = .null) →
          th.stay = none ∧ ∀ row : ClinRow, evalFlags row th .stay_hours = false)
      ∧ ∃ recs, buildScoresE rows = .ok recs
          ∧ recs.length = (firstSeen (rows.map (·.caseNum))).length := by
  have hcol : ∀ f : ClinRow → Cell,
      (∀ r : ClinRow, ClinRowTyped r → cellTyped (f r) = true) →
      ∀ c ∈ rows.map f, cellTyped c = true := by
    intro f hf c hc
    obtain ⟨r, hr, rfl⟩ := List.mem_map.mp hc
    exact hf r (hty r hr)
  have hq1 := quantile75_typed (hcol (·.surg_len) (fun r hr => hr r.surg_len (by simp)))
  have hq2 := quantile75_typed (hcol (·.recov_len) (fun r hr => hr r.recov_len (by simp)))
  have hq3 := quantile75_typed (hcol (·.stay_hours) (fun r hr => hr r.stay_hours (by simp)))
  have hnullcol : ∀ (f : ClinRow → Cell), (∀ r ∈ rows, f r = .null) →
      q75 (numValues (dropna (rows.map f))) = none := by
    intro f hf
    have hd : dropna (rows.map f) = [] := by
      rw [dropna, List.filter_eq_nil_iff]
      intro c hc
      obtain ⟨r, hr, rfl⟩ := List.mem_map.mp hc
      simp [hf r hr]
    rw [hd]
    rfl
  have hthE : computeThresholdsE rows = .ok (computeThresholds rows) := by
    rw [computeThresholdsE, hq1, except_bind_ok, hq2, except_bind_ok, hq3,
      except_bind_ok, except_pure]
    rfl
  refine ⟨computeThresholds rows, hthE, ?_, ?_, ?_, ?_⟩
  · intro hn
    have he : (computeThresholds rows).surg = none := hnullcol (·.surg_len) hn
    exact ⟨he, fun row => by rw [evalFlags, he, cellGtOpt_none]⟩
  · intro hn
    have he : (computeThresholds rows).recov = none := hnullcol (·.recov_len) hn
    exact ⟨he, fun row => by rw [evalFlags, he, cellGtOpt_none]⟩
  · intro hn
    have he : (computeThresholds rows).stay = none := hnullcol (·.stay_hours) hn
    exact ⟨he, fun row => by rw [evalFlags, he, cellGtOpt_none]⟩
  · have hagg : ∀ k ∈ firstSeen (rows.map (·.caseNum)),
        ∃ row, caseAggE (rows.filter (fun r => r.caseNum = k)) k = .ok row := by
      intro k _
      apply caseAggE_typed
      intro r hr
      exact hty r (List.mem_filter.mp hr).1
    obtain ⟨aggs, haggs, hlen⟩ :=
      mapM_ok (fun k => caseAggE (rows.filter (fun r => r.caseNum = k)) k)
        (firstSeen (rows.map (·.caseNum))) hagg
    have hbuild : buildScoresE rows = .ok (aggs.map fun row =>
        let f := evalFlags row (computeThresholds rows)
        let s := scoreOf f
        { caseNum := row.caseNum
          positives := positives f
          score := s
          normalized := roundTo 2 ((1 - s) * 100)
          group := groupOutcome s }) := by
      rw [buildScoresE, hthE, except_bind_ok, haggs, except_bind_ok,
        except_pure]
    exact ⟨_, hbuild, by simp [hlen]⟩

/-- A one-row clinical dataset, numeric or missing in every clinical
cell, whose three duration measures are all null. -/
def c9null : List ClinRow :=
  [{ caseNum := "C1", er := .num 1, revision := .num 0, other_hosp := .num 0,
     readm := .num 0, blood_adm := .num 0, abx_adm := .num 0,
     first_vas := .num 0, surg_len := .null, recov_len := .null,
     stay_hours := .null, bp_diff := .num 0, hr_diff := .num 0,
     spo2_diff := .num 0 }]

/-- C9 witness: on `c9null` the thresholds pass succeeds with a `NaN`
surgery-length threshold, the surgery-length factor is false for every
case row, and scoring completes with one record. -/
theorem null_duration_degenerate_witness :
    (∃ th : Thresholds, computeThresholdsE c9null = .ok th ∧ th.surg = none
      ∧ ∀ row : ClinRow, evalFlags row th .surg_len = false)
    ∧ ∃ recs, buildScoresE c9null = .ok recs ∧ recs.length = 1 := by
  obtain ⟨th, hok, h1, h2, h3, recs, hrecs, hlen⟩ :=
    null_duration_degenerate c9null (by decide)
  have hs := h1 (by decide)
  refine ⟨⟨th, hok, hs.1, hs.2⟩, recs, hrecs, ?_⟩
  rw [hlen]
  decide

/-! ## C10: combination surgeons list vs null filtering -/

/-- C10: the surgeons list of a combination record contains the rendered
`name (score)` label of every matching case — null names and scores
included, rendered literally — and is deduplicated by the whole label,
so one name with two scores yields two entries; price tiers and outcome
categories instead drop null values before deduplication. -/
theorem combo_surgeons_literal_nulls :
    (∀ (pairs : List (Option Cell × Option Cell)) (p : Option Cell × Option Cell),
      p ∈ pairs → surgeonLabel p ∈ surgeonsLabels pairs)
    ∧ (∀ pairs : List (Option Cell × Option Cell), (surgeonsLabels pairs).Nodup)
    ∧ surgeonsLabels [(some (.str "A"), some (.num 1)),
        (some (.str "A"), some (.num 2)), (none, none)]
      = ["A (1)", "A (2)", "None (None)"]
    ∧ (∀ (vals : List (Option String)) (x : String),
      x ∈ groupsLabels vals ↔ some x ∈ vals)
    ∧ (∀ (cs : List CaseRec), ∀ rec ∈ aggregateCombinations cs,
      ∃ g ∈ comboGroups cs,
        rec.surgeons = joinComma (surgeonsLabels
          (g.2.map fun c => (c.surgeonName, c.surgeonScore)))
        ∧ rec.priceGroups = joinComma (groupsLabels (g.2.map (·.priceGroup)))
        ∧ rec.outcomes = joinComma (groupsLabels (g.2.map (·.outcome)))) := by
  refine ⟨?_, ?_, ?_, ?_, ?_⟩
  · intro pairs p hp
    exact (mem_firstSeen _ _).mpr (List.mem_map_of_mem surgeonLabel hp)
  · intro pairs
    exact nodup_firstSeen _
  · decide
  · intro vals x
    rw [groupsLabels, mem_firstSeen, List.mem_filterMap]
    constructor
    · rintro ⟨a, ha, rfl⟩
      exact ha
    · intro h
      exact ⟨some x, h, rfl⟩
  · intro cs rec hrec
    obtain ⟨g, hg, rfl⟩ := List.mem_map.mp hrec
    exact ⟨g, hg, rfl, rfl, rfl⟩

/-- C10 witness: a null pair is rendered literally into the surgeons
list of a concrete pair list. -/
theorem combo_surgeons_literal_nulls_witness :
    surgeonLabel (none, none)
      ∈ surgeonsLabels [(some (.str "A"), some (.num 1)), (none, none)]
    ∧ ("cheap" ∈ groupsLabels [none, some "cheap"]
      ↔ some "cheap" ∈ [none, some "cheap"]) :=
  ⟨combo_surgeons_literal_nulls.1 _ _ (by decide),
   combo_surgeons_literal_nulls.2.2.2.1 _ _⟩

/-! ## C6: permutation invariance of the combination key -/

theorem string_data_inj {a b : String} (h : a.data = b.data) : a = b := by
  cases a
  cases b
  exact congrArg String.mk h

instance : IsTotal String dataLe := ⟨fun a b => le_total a.data b.data⟩

instance : IsTrans String dataLe :=
  ⟨fun _ _ _ h1 h2 => le_trans (α := List Char) h1 h2⟩

instance : IsAntisymm String dataLe :=
  ⟨fun _ _ h1 h2 => string_data_inj (le_antisymm h1 h2)⟩

/-- The canonical items key of a derived combination-pipeline case
record: the sorted rendered items of exactly its matching rows. -/
theorem buildCombo_items (df : List ItemRow) (c : CaseRec)
    (hc : c ∈ buildCaseLevelCombo df) :
    c.items = joinComma (sortStrings
      ((df.filter (fun r => r.caseNum = c.caseNum)).map renderItem)) := by
  obtain ⟨k, hk, rfl⟩ := List.mem_map.mp hc
  rfl

/-- C6: two cases whose item rows carry the same multiset of
(item name, quantity) cells — in any order — get the same canonical
sorted items key in the combination pipeline, and therefore fall into
exactly the same `groupby("items")` group, hence the same combination
record. -/
theorem combo_key_perm_invariant (df : List ItemRow) (c1 c2 : CaseRec)
    (h1 : c1 ∈ buildCaseLevelCombo df) (h2 : c2 ∈ buildCaseLevelCombo df)
    (hperm : ((df.filter (fun r => r.caseNum = c1.caseNum)).map
        (fun r => (r.itemName, r.quantity))).Perm
      ((df.filter (fun r => r.caseNum = c2.caseNum)).map
        (fun r => (r.itemName, r.quantity)))) :
    c1.items = c2.items
    ∧ ∀ g ∈ comboGroups (buildCaseLevelCombo df), (c1 ∈ g.2 ↔ c2 ∈ g.2) := by
  have hp : ((df.filter (fun r => r.caseNum = c1.caseNum)).map renderItem).Perm
      ((df.filter (fun r => r.caseNum = c2.caseNum)).map renderItem) := by
    have hmapped := hperm.map (fun p : Cell × Cell =>
      trimStr (pyStrCell p.1) ++ " (" ++ ratStr (toNum0 p.2) ++ ")")
    rw [List.map_map, List.map_map] at hmapped
    exact hmapped
  have hsorted : (sortStrings ((df.filter
      (fun r => r.caseNum = c1.caseNum)).map renderItem)).Perm
      (sortStrings ((df.filter (fun r => r.caseNum = c2.caseNum)).map renderItem)) :=
    ((List.perm_insertionSort dataLe _).trans hp).trans
      (List.perm_insertionSort dataLe _).symm
  have hs1 := List.sorted_insertionSort dataLe
    ((df.filter (fun r => r.caseNum = c1.caseNum)).map renderItem)
  have hs2 := List.sorted_insertionSort dataLe
    ((df.filter (fun r => r.caseNum = c2.caseNum)).map renderItem)
  have hitems : c1.items = c2.items := by
    rw [buildCombo_items df c1 h1, buildCombo_items df c2 h2]
    exact congrArg joinComma (List.eq_of_perm_of_sorted hsorted hs1 hs2)
  refine ⟨hitems, ?_⟩
  intro g hg
  obtain ⟨key, hkey, rfl⟩ := List.mem_map.mp hg
  simp only [List.mem_filter, decide_eq_true_eq]
  rw [hitems]
  simp [h1, h2]

/-- A four-row dataset where cases A and B hold the same item multiset
in opposite row order. -/
def c6df : List ItemRow :=
  [{ caseNum := "A", surgeonName := .str "S", surgeonScore := .num 1,
     itemName := .str "Mesh", quantity := .num 2, totalPrice := .num 100,
     procs := .null, procsCode := .null },
   { caseNum := "A", surgeonName := .null, surgeonScore := .null,
     itemName := .str "Suture", quantity := .num 1, totalPrice := .num 50,
     procs := .null, procsCode := .null },
   { caseNum := "B", surgeonName := .str "T", surgeonScore := .num 2,
     itemName := .str "Suture", quantity := .num 1, totalPrice := .num 50,
     procs := .null, procsCode := .null },
   { caseNum := "B", surgeonName := .str "T", surgeonScore := .num 2,
     itemName := .str "Mesh", quantity := .num 2, totalPrice := .num 100,
     procs := .null, procsCode := .null }]

/-- C6 witness: in `c6df` the two case records get the same canonical
items key although their rows arrive in opposite order. -/
theorem combo_key_perm_invariant_witness :
    ((buildCaseLevelCombo c6df).headD dummyCase).items
      = ((buildCaseLevelCombo c6df).getD 1 dummyCase).items := by
  have hm1 : (buildCaseLevelCombo c6df).headD dummyCase
      ∈ buildCaseLevelCombo c6df := headD_mem dummyCase (by decide)
  have hm2 : (buildCaseLevelCombo c6df).getD 1 dummyCase
      ∈ buildCaseLevelCombo c6df := getD_mem dummyCase (by decide)
  exact (combo_key_perm_invariant c6df _ _ hm1 hm2 (by decide)).1

/-! ## C2: score formula, bounds, normalized score, category -/

theorem groupOutcome_spec (s : ℚ) :
    (s < 3/13 → groupOutcome s = "good outcome")
    ∧ (3/13 ≤ s → s ≤ 6/13 → groupOutcome s = "moderate outcome")
    ∧ (6/13 < s → groupOutcome s = "bad outcome") := by
  unfold groupOutcome
  refine ⟨fun h => if_pos h, fun h1 h2 => ?_, fun h => ?_⟩
  · rw [if_neg (not_lt.mpr h1), if_pos ⟨h1, h2⟩]
  · rw [if_neg (by intro hlt; linarith), if_neg ?_]
    rintro ⟨_, hle⟩
    linarith

theorem normalized_bounds {s : ℚ} (h0 : 0 ≤ s) (h1 : s ≤ 1) :
    0 ≤ roundTo 2 ((1 - s) * 100) ∧ roundTo 2 ((1 - s) * 100) ≤ 100 := by
  constructor
  · exact roundTo_nonneg 2 (by nlinarith)
  · have h := roundTo_le_intCast (d := 2) (n := 100)
      (x := (1 - s) * 100) (by push_cast; nlinarith)
    simpa using h

/-- A placeholder outcome record for total list accessors. -/
def dummyOutcome : OutcomeRec :=
  { caseNum := "", positives := 0, score := 0, normalized := 0, group := "" }

/-- C2: for every record of `build_scores`, the score is the weighted
sum of the case's true risk factors divided by the total weight,
rounded to 4 places, and lies in `[0, 1]`; the normalized display score
is `round((1 - score) * 100, 2)` and lies in `[0, 100]`; and the
outcome category follows the fixed `3/13` and `6/13` boundaries. -/
theorem score_formula_bounds_category (rows : List ClinRow) (rec : OutcomeRec)
    (hr : rec ∈ buildScores rows) :
    rec.score = roundTo 4 (weightedSum (evalFlags (caseAgg
        (rows.filter (fun r => r.caseNum = rec.caseNum)) rec.caseNum)
        (computeThresholds rows)) / totalWeight)
    ∧ 0 ≤ rec.score ∧ rec.score ≤ 1
    ∧ rec.normalized = roundTo 2 ((1 - rec.score) * 100)
    ∧ 0 ≤ rec.normalized ∧ rec.normalized ≤ 100
    ∧ (rec.score < 3/13 → rec.group = "good outcome")
    ∧ (3/13 ≤ rec.score → rec.score ≤ 6/13 → rec.group = "moderate outcome")
    ∧ (6/13 < rec.score → rec.group = "bad outcome") := by
  obtain ⟨k, hk, rfl⟩ := List.mem_map.mp hr
  have hs0 : (0 : ℚ) ≤ scoreOf (evalFlags (caseAgg
      (rows.filter (fun r => r.caseNum = k)) k) (computeThresholds rows)) :=
    scoreOf_nonneg _
  have hs1 : scoreOf (evalFlags (caseAgg
      (rows.filter (fun r => r.caseNum = k)) k) (computeThresholds rows)) ≤ 1 :=
    scoreOf_le_one _
  refine ⟨rfl, hs0, hs1, rfl, (normalized_bounds hs0 hs1).1,
    (normalized_bounds hs0 hs1).2, ?_, ?_, ?_⟩
  · exact (groupOutcome_spec _).1
  · exact (groupOutcome_spec _).2.1
  · exact (groupOutcome_spec _).2.2

/-- C2 witness: the single record scored from `c9rows` satisfies the
bound and category clauses. -/
theorem score_formula_bounds_category_witness :
    0 ≤ ((buildScores c9rows).headD dummyOutcome).score
    ∧ ((buildScores c9rows).headD dummyOutcome).score ≤ 1
    ∧ 0 ≤ ((buildScores c9rows).headD dummyOutcome).normalized
    ∧ ((buildScores c9rows).headD dummyOutcome).normalized ≤ 100 := by
  have hne : buildScores c9rows ≠ [] := by decide
  have h := score_formula_bounds_category c9rows _ (headD_mem dummyOutcome hne)
  exact ⟨h.2.1, h.2.2.1, h.2.2.2.2.1, h.2.2.2.2.2.1⟩

/-! ## C1: the four-factor scenario -/

/-- A one-row clinical dataset whose case has exactly the four
0.08-weighted risk factors true (ER admission, revision, transfer,
re-admission) and all other factors false. -/
def c1rows : List ClinRow :=
  [{ caseNum := "C1", er := .num 1, revision := .num 1, other_hosp := .num 1,
     readm := .num 1, blood_adm := .num 0, abx_adm := .num 0,
     first_vas := .num 0, surg_len := .num 0, recov_len := .num 0,
     stay_hours := .num 0, bp_diff := .num 0, hr_diff := .num 0,
     spo2_diff := .num 0 }]

theorem c1rows_thresholds :
    computeThresholds c1rows = { surg := some 0, recov := some 0, stay := some 0 } := by
  simp [computeThresholds, c1rows, dropna, numValues, q75, List.insertionSort,
    List.orderedInsert]

theorem c1rows_weightedSum :
    weightedSum (evalFlags (caseAgg (c1rows.filter
        (fun r => r.caseNum = "C1")) "C1") (computeThresholds c1rows)) = 32/100 := by
  rw [c1rows_thresholds]
  simp [weightedSum, paramList, evalFlags, caseAgg, c1rows, cellMaxList,
    cellEq1, cellGt, cellGtOpt, toNumericOpt, paramWeight, beq_iff_eq]
  norm_num

theorem c1rows_positives :
    positives (evalFlags (caseAgg (c1rows.filter
        (fun r => r.caseNum = "C1")) "C1") (computeThresholds c1rows)) = 4 := by
  rw [c1rows_thresholds]
  simp [positives, paramList, evalFlags, caseAgg, c1rows, cellMaxList,
    cellEq1, cellGt, cellGtOpt, toNumericOpt, beq_iff_eq]

theorem c1rows_score :
    scoreOf (evalFlags (caseAgg (c1rows.filter
        (fun r => r.caseNum = "C1")) "C1") (computeThresholds c1rows))
      = 3478/10000 := by
  rw [scoreOf, c1rows_weightedSum, totalWeight_eq]
  norm_num [roundTo, rndHalfEven]

theorem c1rows_buildScores :
    buildScores c1rows
      = [{ caseNum := "C1", positives := 4, score := 3478/10000,
           normalized := 6522/100, group := "moderate outcome" }] := by
  have hkeys : firstSeen (c1rows.map (·.caseNum)) = ["C1"] := by decide
  rw [buildScores]
  rw [hkeys]
  rw [List.map_cons, List.map_nil]
  have hs := c1rows_score
  have hp := c1rows_positives
  refine congrArg (· :: []) ?_
  rw [OutcomeRec.mk.injEq]
  refine ⟨rfl, hp, hs, ?_, ?_⟩
  · rw [hs]
    norm_num [roundTo, rndHalfEven]
  · rw [hs]
    rw [groupOutcome]
    norm_num

/-- C1 counterexample: for the four-factor case the engine's score is
0.3478, not 0.32 — the 13 weights sum to 0.92, not 1.0, so the claimed
score 0.32 is wrong (the category is still `moderate outcome`). -/
theorem four_factor_score_ne_032 :
    (buildScores c1rows).map (·.score) = [3478/10000]
    ∧ ¬((buildScores c1rows).map (·.score) = [32/100])
    ∧ totalWeight ≠ 1 := by
  rw [c1rows_buildScores]
  refine ⟨rfl, ?_, ?_⟩
  · intro h
    simp only [List.map_cons, List.map_nil, List.cons.injEq] at h
    have := h.1
    norm_num at this
  · rw [totalWeight_eq]
    norm_num

/-- C1 as amended: the four 0.08-weighted factors give weighted sum
0.32 over the total weight 0.92, hence score `round(0.32/0.92, 4) =
0.3478`, positives 4, and outcome category `moderate outcome`. -/
theorem four_factor_score_amended :
    weightedSum (evalFlags (caseAgg (c1rows.filter
        (fun r => r.caseNum = "C1")) "C1") (computeThresholds c1rows)) = 32/100
    ∧ totalWeight = 92/100
    ∧ buildScores c1rows
      = [{ caseNum := "C1", positives := 4, score := 3478/10000,
           normalized := 6522/100, group := "moderate outcome" }] := by
  refine ⟨c1rows_weightedSum, ?_, c1rows_buildScores⟩
  rw [totalWeight_eq]
  norm_num

/-! ## C3: monotonicity of the score in the true risk factors -/

/-- Two true factors of weight 0.04 each (First VAS, blood pressure
diff). -/
def twoLightFlags : Param → Bool
  | .first_vas => true
  | .bp_diff => true
  | _ => false

/-- One true factor of weight 0.16 (surgery length). -/
def oneHeavyFlag : Param → Bool
  | .surg_len => true
  | _ => false

/-- A superset of `oneHeavyFlag` (surgery length and ER admission). -/
def heavyPlusEr : Param → Bool
  | .surg_len => true
  | .er => true
  | _ => false

/-- C3 counterexample: a case with two true factors scores strictly
below a case with one true factor, so the score is not monotone in the
number of true risk factors — with the engine's unequal weights, more
factors can weigh less. -/
theorem score_not_monotone_in_count :
    positives oneHeavyFlag < positives twoLightFlags
    ∧ scoreOf twoLightFlags < scoreOf oneHeavyFlag := by
  constructor
  · decide
  · have h1 : scoreOf twoLightFlags = 870/10000 := by
      have hw : weightedSum twoLightFlags = 8/100 := by
        norm_num [weightedSum, paramList, twoLightFlags, paramWeight]
      rw [scoreOf, hw, totalWeight_eq]
      norm_num [roundTo, rndHalfEven]
    have h2 : scoreOf oneHeavyFlag = 1739/10000 := by
      have hw : weightedSum oneHeavyFlag = 16/100 := by
        norm_num [weightedSum, paramList, oneHeavyFlag, paramWeight]
      rw [scoreOf, hw, totalWeight_eq]
      norm_num [roundTo, rndHalfEven]
    rw [h1, h2]
    norm_num

/-- C3 as amended: with the non-negative weights the score is monotone
under inclusion of the sets of true risk factors (adding true factors
never lowers it), and it is 0 iff no factor is true and 1 iff all 13
are true. -/
theorem score_monotone_and_extremes :
    (∀ f g : Param → Bool, (∀ p, f p = true → g p = true)
      → scoreOf f ≤ scoreOf g)
    ∧ (∀ f : Param → Bool, (scoreOf f = 0 ↔ ∀ p, f p = false))
    ∧ (∀ f : Param → Bool, (scoreOf f = 1 ↔ ∀ p, f p = true)) :=
  ⟨fun _ _ h => scoreOf_mono h, scoreOf_eq_zero_iff, scoreOf_eq_one_iff⟩

/-- C3 witness: the amended monotonicity at a concrete inclusion, and
the two extreme characterizations at the all-false and all-true flag
sets. -/
theorem score_monotone_and_extremes_witness :
    scoreOf oneHeavyFlag ≤ scoreOf heavyPlusEr
    ∧ scoreOf (fun _ => false) = 0
    ∧ scoreOf (fun _ => true) = 1 := by
  refine ⟨score_monotone_and_extremes.1 oneHeavyFlag heavyPlusEr ?_,
    (score_monotone_and_extremes.2.1 _).mpr (fun _ => rfl),
    (score_monotone_and_extremes.2.2 _).mpr (fun _ => rfl)⟩
  intro p hp
  cases p <;> first | rfl | exact absurd hp (by decide)

end Logistic
